import Mathlib

/-!
Shallow embedding of the data transformation and analysis pipeline of the
weather-analytics-dashboard repository (`src/processing/analyzer.py`,
class `WeatherDataProcessor`), together with theorems settling the
specification claims about it.

Modelling conventions:
* All numeric measurements (temperatures, humidity, precipitation, wind,
  cloud cover, coordinates) are rationals `ℚ`.
* Timestamps are hours since an epoch (`ℕ`); the calendar date extracted by
  `df['time'].dt.date` is modelled as the hour index divided by 24.
* A pandas `DataFrame` of hourly observations is a `Table`: a row list plus
  flags recording which optional columns exist.  The flag `hasCols` is false
  exactly for the column-less empty frame `pd.DataFrame()` (the normalizer's
  output on an empty payload sequence); accessing a column of that frame
  raises `KeyError` in pandas, which the embedding reproduces.
* Python exceptions are modelled by the `PyError` type and fallible
  operations return `Except PyError _`.
-/

/-- Python-level errors that the analyzer's operations can raise, plus the
`DataShapeError` kind named by the specification (§7).  `dataShapeError` is
modelled from the spec: no such exception class exists anywhere in the
source; it is included only so that claims mentioning it are statable. -/
inductive PyError where
  | keyError (key : String)
  | valueError
  | dataShapeError
  deriving Repr, DecidableEq

/-- Hours since the epoch; `pd.to_datetime` string parsing is abstracted
away and payloads carry already-parsed hour stamps. -/
abbrev Time := ℕ

/-- `df['time'].dt.date`: the calendar date of an hour stamp. -/
def dateOf (t : Time) : ℕ := t / 24

/-- One row of the unified observation table built by `raw_to_dataframe`.
`state`/`region` are `none` for rows whose payload lacked those keys (pandas
fills NaN there when another payload introduced the column).  `temp_ma` and
`temp_anomaly` are the enrichment columns; before enrichment they hold the
defaults `none` / `false` and the corresponding `Table` flag is false. -/
structure Obs where
  time : Time
  temperature_2m : ℚ
  relative_humidity_2m : ℚ
  precipitation : ℚ
  wind_speed_10m : ℚ
  cloud_cover : ℚ
  city : String
  latitude : ℚ
  longitude : ℚ
  state : Option String := none
  region : Option String := none
  temp_ma : Option ℚ := none
  temp_anomaly : Bool := false
  deriving Repr, DecidableEq

/-- A pandas `DataFrame` of observations.  `hasCols` records whether the
base observation columns exist at all (false only for `pd.DataFrame()`);
the other flags record the presence of the optional columns. -/
structure Table where
  rows : List Obs
  hasCols : Bool
  hasState : Bool
  hasRegion : Bool
  hasMa : Bool := false
  hasAnomaly : Bool := false
  deriving Repr, DecidableEq

/-- The parallel hourly arrays of one per-city payload
(`city_data['hourly']`). -/
structure Hourly where
  time : List Time
  temperature_2m : List ℚ
  relative_humidity_2m : List ℚ
  precipitation : List ℚ
  wind_speed_10m : List ℚ
  cloud_cover : List ℚ
  deriving Repr, DecidableEq

/-- One raw per-city payload handed to the normalizer.  `hourly = none`
models a payload dict missing its `'hourly'` key. -/
structure Payload where
  city_name : String
  lat : ℚ
  lon : ℚ
  state : Option String := none
  region : Option String := none
  hourly : Option Hourly
  deriving Repr, DecidableEq

/-- All six parallel arrays have the same length; `pd.DataFrame(hourly_data)`
succeeds exactly in this case and raises `ValueError` otherwise. -/
def Hourly.wellFormed (h : Hourly) : Bool :=
  decide (h.temperature_2m.length = h.time.length) &&
  decide (h.relative_humidity_2m.length = h.time.length) &&
  decide (h.precipitation.length = h.time.length) &&
  decide (h.wind_speed_10m.length = h.time.length) &&
  decide (h.cloud_cover.length = h.time.length)

/-- The per-payload frame built inside the loop of `raw_to_dataframe`:
`pd.DataFrame(hourly_data)` plus the constant city/lat/lon (and state/region
when present) columns.  A missing `'hourly'` key raises `KeyError`; ragged
parallel arrays raise `ValueError` from the `DataFrame` constructor. -/
def payloadFrame (p : Payload) : Except PyError (List Obs) :=
  match p.hourly with
  | none => .error (.keyError "hourly")
  | some h =>
      if h.wellFormed then
        .ok ((List.range h.time.length).map fun i =>
          { time := h.time.getD i 0
            temperature_2m := h.temperature_2m.getD i 0
            relative_humidity_2m := h.relative_humidity_2m.getD i 0
            precipitation := h.precipitation.getD i 0
            wind_speed_10m := h.wind_speed_10m.getD i 0
            cloud_cover := h.cloud_cover.getD i 0
            city := p.city_name
            latitude := p.lat
            longitude := p.lon
            state := p.state
            region := p.region })
      else .error .valueError

/-- The `for city_data in raw_data` loop of `raw_to_dataframe`: build the
per-payload frames in order, propagating the exception of the first bad
payload. -/
def collectFrames : List Payload → Except PyError (List (List Obs))
  | [] => .ok []
  | p :: ps => do
      let f ← payloadFrame p
      let rest ← collectFrames ps
      return f :: rest

/-- `WeatherDataProcessor.raw_to_dataframe`: build one frame per payload and
concatenate them.  An empty payload sequence yields the column-less
`pd.DataFrame()` (`hasCols = false`); otherwise the concatenation has the
base columns, and the optional state/region columns exist when any payload
supplied them. -/
def raw_to_dataframe (raw_data : List Payload) : Except PyError Table := do
  let frames ← collectFrames raw_data
  if raw_data.isEmpty then
    return { rows := [], hasCols := false, hasState := false, hasRegion := false }
  else
    return { rows := frames.flatten
             hasCols := true
             hasState := raw_data.any (·.state.isSome)
             hasRegion := raw_data.any (·.region.isSome) }

/-- Mean of a list of rationals (`Series.mean`); division by zero makes the
empty case `0`, which no claim relies on (pandas would give NaN). -/
def qmean (l : List ℚ) : ℚ := l.sum / l.length

/-- `Series.max` on a non-empty list; the empty case is the junk value `0`
(pandas NaN), never reached on the paths the claims exercise. -/
def qmax : List ℚ → ℚ
  | [] => 0
  | x :: xs => xs.foldl max x

/-- `Series.min` on a non-empty list; empty case as in `qmax`. -/
def qmin : List ℚ → ℚ
  | [] => 0
  | x :: xs => xs.foldl min x

/-- Insert `x` into a sorted list, before the first element it compares
`le` to; used to model pandas' stable sorts structurally. -/
def insertLe {α : Type} (le : α → α → Bool) (x : α) : List α → List α
  | [] => [x]
  | y :: ys => if le x y then x :: y :: ys else y :: insertLe le x ys

/-- Stable sort by the total comparison `le` (insertion sort).  On a total
preorder this produces the same list as any stable sort, so it models
pandas' sorted `groupby` keys and `sort_values`. -/
def sortStable {α : Type} (le : α → α → Bool) : List α → List α
  | [] => []
  | x :: xs => insertLe le x (sortStable le xs)

/-- Helper for `pdUnique`: keep the elements not yet `seen`, first
occurrences only. -/
def pdUniqueAux {α : Type} [DecidableEq α] : List α → List α → List α
  | [], _ => []
  | x :: xs, seen =>
      if x ∈ seen then pdUniqueAux xs seen else x :: pdUniqueAux xs (x :: seen)

/-- `Series.unique()`: the distinct values of a list in first-occurrence
order (pandas keeps the order of first appearance). -/
def pdUnique {α : Type} [DecidableEq α] (l : List α) : List α :=
  pdUniqueAux l []

/-- The `temperature_2m` series of one city, in table row order
(`df.loc[df['city'] == city, 'temperature_2m']`). -/
def cityTemps (rows : List Obs) (c : String) : List ℚ :=
  (rows.filter fun r => decide (r.city = c)).map (·.temperature_2m)

/-- `Series.rolling(window=W, min_periods=1).mean()`: position `i` holds the
mean of the trailing window `xs[max(0, i+1-W) .. i]` (truncated subtraction
realises the `max`). -/
def rollingMeanMinp1 (W : ℕ) (xs : List ℚ) : List ℚ :=
  (List.range xs.length).map fun i => qmean ((xs.take (i + 1)).drop (i + 1 - W))

/-- The masked assignment `df.loc[city_mask, 'temp_ma'] = rolling_series`:
rows are visited in table order and each row of city `c` receives the next
unused position of `c`'s rolling-mean series, tracked by the counter
`cnt`. -/
def assignMa (ma : String → List ℚ) : List Obs → (String → ℕ) → List Obs
  | [], _ => []
  | r :: rest, cnt =>
      { r with temp_ma := (ma r.city)[cnt r.city]? } ::
        assignMa ma rest fun c => if c = r.city then cnt c + 1 else cnt c

/-- `WeatherDataProcessor.calculate_moving_averages`: per city, the rolling
mean of `temperature_2m` with window `W` and `min_periods=1`, written back
positionally under the city mask. -/
def calculate_moving_averages (W : ℕ) (tbl : Table) : Table :=
  { tbl with
    hasMa := true
    rows := assignMa (fun c => rollingMeanMinp1 W (cityTemps tbl.rows c))
      tbl.rows (fun _ => 0) }

/-- `Series.std()` squared: the sample variance with `ddof = 1`.  For a
single-element series the ℚ-division by `0` yields `0`, matching the
pandas NaN in that the anomaly test below then never fires. -/
def sampleVar (l : List ℚ) : ℚ :=
  (l.map fun x => (x - qmean l) ^ 2).sum / ((l.length - 1 : ℕ) : ℚ)

/-- The per-row anomaly test of `detect_anomalies`.  The source computes
`std = sqrt(sampleVar)` and tests `std > 0 and |v - mean| > threshold * std`;
this executable form squares both sides, which is equivalent whenever the
configured `threshold` is non-negative (lemma `anomalyFlag_iff_real`). -/
def anomalyFlag (threshold : ℚ) (temps : List ℚ) (v : ℚ) : Bool :=
  decide (0 < sampleVar temps ∧
    threshold ^ 2 * sampleVar temps < (v - qmean temps) ^ 2)

/-- `WeatherDataProcessor.detect_anomalies`: flag each row whose city-wide
z-score exceeds the threshold; the column starts all-`false` and cities with
zero (or undefined) standard deviation keep `false` everywhere. -/
def detect_anomalies (threshold : ℚ) (tbl : Table) : Table :=
  { tbl with
    hasAnomaly := true
    rows := tbl.rows.map fun r =>
      { r with
        temp_anomaly := anomalyFlag threshold (cityTemps tbl.rows r.city)
          r.temperature_2m } }

/-- One emitted alert.  The human-readable `message` string (the value
formatted to one decimal) is presentation-only and not modelled. -/
structure Alert where
  type : String
  city : String
  time : Time
  value : ℚ
  deriving Repr, DecidableEq

/-- The four alert thresholds read from `config['alerts']`. -/
structure AlertConfig where
  temp_high : ℚ
  temp_low : ℚ
  wind_high : ℚ
  precip_high : ℚ
  deriving Repr, DecidableEq

/-- `WeatherDataProcessor.generate_alerts`: scan all rows against the four
threshold predicates, emitting the high-temperature block first (row
order), then low-temperature, high-wind and heavy-precipitation. -/
def generate_alerts (cfg : AlertConfig) (tbl : Table) : List Alert :=
  ((tbl.rows.filter fun r => decide (cfg.temp_high < r.temperature_2m)).map fun r =>
      { type := "high_temperature", city := r.city, time := r.time
        value := r.temperature_2m }) ++
  ((tbl.rows.filter fun r => decide (r.temperature_2m < cfg.temp_low)).map fun r =>
      { type := "low_temperature", city := r.city, time := r.time
        value := r.temperature_2m }) ++
  ((tbl.rows.filter fun r => decide (cfg.wind_high < r.wind_speed_10m)).map fun r =>
      { type := "high_wind", city := r.city, time := r.time
        value := r.wind_speed_10m }) ++
  ((tbl.rows.filter fun r => decide (cfg.precip_high < r.precipitation)).map fun r =>
      { type := "heavy_precipitation", city := r.city, time := r.time
        value := r.precipitation })

/-- One row of the daily aggregate produced by `aggregate_daily_stats`.
No state/region fields: the success path of the source is only reachable
when those columns are absent (see `aggregate_daily_stats`). -/
structure DailyAgg where
  city : String
  date : ℕ
  temp_mean : ℚ
  temp_min : ℚ
  temp_max : ℚ
  humidity_mean : ℚ
  precipitation_total : ℚ
  wind_max : ℚ
  cloud_cover_mean : ℚ
  latitude : ℚ
  longitude : ℚ
  deriving Repr, DecidableEq

/-- Lexicographic order on the `(city, date)` group keys; `groupby` sorts
group keys ascending by default. -/
def keyLe (a b : String × ℕ) : Bool :=
  decide (a.1 < b.1) || (decide (a.1 = b.1) && decide (a.2 ≤ b.2))

/-- `df.groupby(['city', 'date']).agg(...)` on the base columns: one output
row per distinct `(city, date)` pair, keys sorted ascending, aggregating
that group's rows in input order (`'first'` takes the group's first row). -/
def groupDaily (rows : List Obs) : List DailyAgg :=
  (sortStable keyLe (pdUnique (rows.map fun r => (r.city, dateOf r.time)))).map
    fun k =>
      let grp := rows.filter fun r => decide (r.city = k.1 ∧ dateOf r.time = k.2)
      { city := k.1
        date := k.2
        temp_mean := qmean (grp.map (·.temperature_2m))
        temp_min := qmin (grp.map (·.temperature_2m))
        temp_max := qmax (grp.map (·.temperature_2m))
        humidity_mean := qmean (grp.map (·.relative_humidity_2m))
        precipitation_total := (grp.map (·.precipitation)).sum
        wind_max := qmax (grp.map (·.wind_speed_10m))
        cloud_cover_mean := qmean (grp.map (·.cloud_cover))
        latitude := ((grp.head?).map (·.latitude)).getD 0
        longitude := ((grp.head?).map (·.longitude)).getD 0 }

/-- `WeatherDataProcessor.aggregate_daily_stats`.  The first statement
`df['date'] = df['time'].dt.date` raises `KeyError('time')` on the
column-less empty frame.  When a `state` or `region` column exists the agg
result has 12 or 13 columns while the source then assigns a hard-coded list
of 11 column names, so pandas raises `ValueError` (length mismatch) before
anything is returned.  Otherwise the grouped aggregation is returned. -/
def aggregate_daily_stats (tbl : Table) : Except PyError (List DailyAgg) :=
  if tbl.hasCols = false then .error (.keyError "time")
  else if tbl.hasState || tbl.hasRegion then .error .valueError
  else .ok (groupDaily tbl.rows)

/-- `df['city'].nunique()`: number of distinct city values. -/
def nuniqueCities (rows : List Obs) : ℕ :=
  (pdUnique (rows.map (·.city))).length

/-- `WeatherDataProcessor.get_summary_statistics`, as the key/value pairs of
the returned dict in source order.  Counts are cast into ℚ.  The anomaly
count falls back to `0` when the `temp_anomaly` column is absent
(`df.get('temp_anomaly', pd.Series([False])).sum()`). -/
def get_summary_statistics (tbl : Table) : List (String × ℚ) :=
  if tbl.rows.isEmpty then
    [("total_cities", 0), ("total_records", 0), ("avg_temperature", 0),
     ("max_temperature", 0), ("min_temperature", 0), ("avg_humidity", 0),
     ("total_precipitation", 0), ("max_wind_speed", 0),
     ("anomalies_detected", 0)]
  else
    [("total_cities", (nuniqueCities tbl.rows : ℚ)),
     ("total_records", (tbl.rows.length : ℚ)),
     ("avg_temperature", qmean (tbl.rows.map (·.temperature_2m))),
     ("max_temperature", qmax (tbl.rows.map (·.temperature_2m))),
     ("min_temperature", qmin (tbl.rows.map (·.temperature_2m))),
     ("avg_humidity", qmean (tbl.rows.map (·.relative_humidity_2m))),
     ("total_precipitation", (tbl.rows.map (·.precipitation)).sum),
     ("max_wind_speed", qmax (tbl.rows.map (·.wind_speed_10m))),
     ("anomalies_detected",
       if tbl.hasAnomaly then ((tbl.rows.countP (·.temp_anomaly)) : ℚ) else 0)]

/-- The row filter `df['region'] == region`.  pandas `==` against a NaN key
is false everywhere (NaN compares unequal even to itself), hence the `none`
key matches no row. -/
def matchRegion (key : Option String) (r : Obs) : Bool :=
  match key, r.region with
  | some k, some s => decide (s = k)
  | _, _ => false

/-- `WeatherDataProcessor.get_regional_statistics`: empty mapping on an
empty frame or when no `region` column exists; otherwise one entry per
distinct region value (first-occurrence order), holding the seven key/value
pairs of the source's per-region dict. -/
def get_regional_statistics (tbl : Table) :
    List (Option String × List (String × ℚ)) :=
  if tbl.rows.isEmpty || !tbl.hasRegion then []
  else
    (pdUnique (tbl.rows.map (·.region))).map fun reg =>
      let sub := tbl.rows.filter (matchRegion reg)
      (reg,
       [("cities", (nuniqueCities sub : ℚ)),
        ("avg_temperature", qmean (sub.map (·.temperature_2m))),
        ("max_temperature", qmax (sub.map (·.temperature_2m))),
        ("min_temperature", qmin (sub.map (·.temperature_2m))),
        ("avg_humidity", qmean (sub.map (·.relative_humidity_2m))),
        ("total_precipitation", (sub.map (·.precipitation)).sum),
        ("max_wind_speed", qmax (sub.map (·.wind_speed_10m)))])

/-- A detected heat wave (`patterns['heat_waves']` entry). -/
structure HeatWave where
  city : String
  duration_hours : ℕ
  max_temp : ℚ
  deriving Repr, DecidableEq

/-- A detected cold front (`patterns['cold_fronts']` entry). -/
structure ColdFront where
  city : String
  temp_drop : ℚ
  time : Time
  deriving Repr, DecidableEq

/-- A detected heavy-rain event (`patterns['heavy_rain_events']` entry). -/
structure HeavyRainEvent where
  city : String
  precipitation_3h : ℚ
  time : Time
  deriving Repr, DecidableEq

/-- The dict returned by `detect_weather_patterns`. -/
structure Patterns where
  heat_waves : List HeatWave
  cold_fronts : List ColdFront
  heavy_rain_events : List HeavyRainEvent
  deriving Repr, DecidableEq

/-- `city_df.sort_values('time')`: the city's rows ordered by time
(modelled with a stable sort; no claim involves duplicate timestamps,
where the pandas default quicksort could tie-break differently). -/
def sortByTime (rows : List Obs) : List Obs :=
  sortStable (fun a b => decide (a.time ≤ b.time)) rows

/-- The rows of one city in time order, as used by every branch of
`detect_weather_patterns` (`df[df['city'] == city].sort_values('time')`). -/
def citySorted (rows : List Obs) (c : String) : List Obs :=
  sortByTime (rows.filter fun r => decide (r.city = c))

/-- Lengths of the maximal `true` runs of a boolean list, in order, with
`cur` the length of the run in progress.  This is the
`(heat_wave != heat_wave.shift()).cumsum()` / `groupby.size()` run-length
encoding restricted to the `true` groups. -/
def trueRunsAux : List Bool → ℕ → List ℕ
  | [], cur => if cur = 0 then [] else [cur]
  | b :: rest, cur =>
      if b then trueRunsAux rest (cur + 1)
      else if cur = 0 then trueRunsAux rest 0
      else cur :: trueRunsAux rest 0

/-- Lengths of the maximal `true` runs of a boolean list. -/
def trueRuns (l : List Bool) : List ℕ := trueRunsAux l 0

/-- Maximum of a list of naturals (`Series.max` on run lengths). -/
def natMax (l : List ℕ) : ℕ := l.foldl max 0

/-- The heat-wave branch of `detect_weather_patterns` for one city: mark
hours with `temperature_2m > 35`, take the maximal true-run lengths; if any
is `≥ 3`, record the longest run and the maximum temperature over all
marked hours of the city. -/
def heatWaveFinding (rows : List Obs) (c : String) : Option HeatWave :=
  let sorted := citySorted rows c
  let hot := sorted.filter fun r => decide ((35 : ℚ) < r.temperature_2m)
  let seqs := trueRuns (sorted.map fun r => decide ((35 : ℚ) < r.temperature_2m))
  if seqs.any (fun n => decide (3 ≤ n)) then
    some { city := c
           duration_hours := natMax seqs
           max_temp := qmax (hot.map (·.temperature_2m)) }
  else none

/-- `temperature_2m.diff(periods=24)` at position `i` of the sorted city
series: defined (non-NaN) only for `24 ≤ i`. -/
def tempChange24 (temps : List ℚ) (i : ℕ) : ℚ :=
  temps.getD i 0 - temps.getD (i - 24) 0

/-- Positions of the sorted city series whose 24-row temperature change is
below −10 (`city_df[city_df['temp_change_24h'] < -10]`). -/
def coldFrontPositions (temps : List ℚ) : List ℕ :=
  (List.range temps.length).filter fun i =>
    decide (24 ≤ i) && decide (tempChange24 temps i < -10)

/-- The cold-front branch of `detect_weather_patterns` for one city: if any
position qualifies, record the minimum (most negative) qualifying change
and the time of the first qualifying row. -/
def coldFrontFinding (rows : List Obs) (c : String) : Option ColdFront :=
  let sorted := citySorted rows c
  let temps := sorted.map (·.temperature_2m)
  match coldFrontPositions temps with
  | [] => none
  | i :: rest =>
      some { city := c
             temp_drop := qmin ((i :: rest).map (tempChange24 temps))
             time := (sorted.map (·.time)).getD i 0 }

/-- `precipitation.rolling(window=3).sum()` at position `i` of the sorted
city series: the sum of positions `i-2, i-1, i`, defined (non-NaN) only for
`2 ≤ i` (default `min_periods` equals the window). -/
def precip3h (precs : List ℚ) (i : ℕ) : ℚ :=
  precs.getD (i - 2) 0 + precs.getD (i - 1) 0 + precs.getD i 0

/-- Positions whose trailing 3-sample precipitation sum exceeds 30
(`city_df[city_df['precip_3h'] > 30]`). -/
def heavyRainPositions (precs : List ℚ) : List ℕ :=
  (List.range precs.length).filter fun i =>
    decide (2 ≤ i) && decide ((30 : ℚ) < precip3h precs i)

/-- The heavy-rain branch of `detect_weather_patterns` for one city: if any
position qualifies, record the maximum qualifying 3-hour sum and the time
of the first qualifying row. -/
def heavyRainFinding (rows : List Obs) (c : String) : Option HeavyRainEvent :=
  let sorted := citySorted rows c
  let precs := sorted.map (·.precipitation)
  match heavyRainPositions precs with
  | [] => none
  | i :: rest =>
      some { city := c
             precipitation_3h := qmax ((i :: rest).map (precip3h precs))
             time := (sorted.map (·.time)).getD i 0 }

/-- `WeatherDataProcessor.detect_weather_patterns`: each detector loops over
the distinct cities in first-occurrence order and contributes at most one
finding per city; an empty frame yields three empty lists. -/
def detect_weather_patterns (tbl : Table) : Patterns :=
  if tbl.rows.isEmpty then { heat_waves := [], cold_fronts := [], heavy_rain_events := [] }
  else
    let cities := pdUnique (tbl.rows.map (·.city))
    { heat_waves := cities.filterMap (heatWaveFinding tbl.rows)
      cold_fronts := cities.filterMap (coldFrontFinding tbl.rows)
      heavy_rain_events := cities.filterMap (heavyRainFinding tbl.rows) }

/-- Compact observation-row builder for concrete instances (latitude 1,
longitude 2, no optional columns). -/
def mkObs (t : Time) (c : String) (temp hum prec wind cloud : ℚ) : Obs :=
  { time := t, temperature_2m := temp, relative_humidity_2m := hum,
    precipitation := prec, wind_speed_10m := wind, cloud_cover := cloud,
    city := c, latitude := 1, longitude := 2 }

/-- A payload whose dict is missing the `'hourly'` key. -/
def missingHourlyPayload : Payload :=
  { city_name := "Recife", lat := -8, lon := -35, hourly := none }

/-- A payload whose parallel hourly arrays have unequal lengths (two time
stamps but a single temperature). -/
def raggedPayload : Payload :=
  { city_name := "Natal", lat := -6, lon := -35,
    hourly := some { time := [0, 1], temperature_2m := [25],
                     relative_humidity_2m := [60, 61], precipitation := [0, 0],
                     wind_speed_10m := [10, 11], cloud_cover := [20, 30] } }

/-- C3: `generate_alerts` emits, for each row, one alert per violated
predicate with `value` equal to the triggering measurement, grouped in the
order high-temperature (row order), low-temperature, high-wind,
heavy-precipitation; and with `T_hi = 35`, a row with `temperature_2m = 40`
yields exactly one `high_temperature` alert with `value = 40`. -/
theorem generate_alerts_C3 (cfg : AlertConfig) (tbl : Table) :
    (generate_alerts cfg tbl =
      ((tbl.rows.filter fun r => decide (cfg.temp_high < r.temperature_2m)).map fun r =>
          { type := "high_temperature", city := r.city, time := r.time
            value := r.temperature_2m }) ++
      ((tbl.rows.filter fun r => decide (r.temperature_2m < cfg.temp_low)).map fun r =>
          { type := "low_temperature", city := r.city, time := r.time
            value := r.temperature_2m }) ++
      ((tbl.rows.filter fun r => decide (cfg.wind_high < r.wind_speed_10m)).map fun r =>
          { type := "high_wind", city := r.city, time := r.time
            value := r.wind_speed_10m }) ++
      ((tbl.rows.filter fun r => decide (cfg.precip_high < r.precipitation)).map fun r =>
          { type := "heavy_precipitation", city := r.city, time := r.time
            value := r.precipitation })) ∧
    (∀ r : Obs, cfg.temp_high = 35 → r.temperature_2m = 40 →
      (generate_alerts cfg
          { rows := [r], hasCols := true, hasState := false, hasRegion := false }).filter
            (fun a => decide (a.type = "high_temperature")) =
        [{ type := "high_temperature", city := r.city, time := r.time, value := 40 }]) := by
  constructor
  · simp [generate_alerts]
  · intro r hhi htemp
    simp [generate_alerts, List.filter_append, List.filter_map, Function.comp_def, htemp, hhi,
      show (35 : ℚ) < 40 by norm_num]

/-- C3 witness: a single 40-degree row against the threshold configuration
of the repository's tests. -/
theorem generate_alerts_C3_witness :
    (generate_alerts ⟨35, 5, 60, 50⟩
        { rows := [mkObs 0 "TestCity" 40 60 0 10 30], hasCols := true,
          hasState := false, hasRegion := false }).filter
          (fun a => decide (a.type = "high_temperature")) =
      [{ type := "high_temperature", city := "TestCity", time := 0, value := 40 }] :=
  (generate_alerts_C3 ⟨35, 5, 60, 50⟩
      { rows := [mkObs 0 "TestCity" 40 60 0 10 30], hasCols := true,
        hasState := false, hasRegion := false }).2
    (mkObs 0 "TestCity" 40 60 0 10 30) rfl rfl

/-- C2 counterexample: on the column-less empty frame that the normalizer
returns for an empty payload sequence, `aggregate_daily_stats` raises
`KeyError('time')` at `df['time'].dt.date` instead of returning an empty
table. -/
theorem aggregate_daily_stats_C2_counterexample :
    aggregate_daily_stats
        { rows := [], hasCols := false, hasState := false, hasRegion := false } =
      .error (.keyError "time") ∧
    (aggregate_daily_stats
        { rows := [], hasCols := false, hasState := false, hasRegion := false }).isOk = false :=
  ⟨rfl, rfl⟩

/-- C2 amended: on an empty table that still has the observation columns
(and no state/region columns), `aggregate_daily_stats` returns an empty
table and does not raise. -/
theorem aggregate_daily_stats_C2_amended (tbl : Table) (hrows : tbl.rows = [])
    (hcols : tbl.hasCols = true) (hstate : tbl.hasState = false)
    (hregion : tbl.hasRegion = false) :
    aggregate_daily_stats tbl = .ok [] := by
  simp [aggregate_daily_stats, hcols, hstate, hregion, groupDaily, hrows, pdUnique,
    pdUniqueAux, sortStable]

/-- C2 witness: the empty frame with observation columns aggregates to the
empty table. -/
theorem aggregate_daily_stats_C2_witness :
    aggregate_daily_stats
        { rows := [], hasCols := true, hasState := false, hasRegion := false } = .ok [] :=
  aggregate_daily_stats_C2_amended
    { rows := [], hasCols := true, hasState := false, hasRegion := false } rfl rfl rfl rfl

/-- C1 counterexample: a payload missing its hourly block is rejected with
`KeyError('hourly')` and a ragged payload with `ValueError` — not with the
spec's `DataShapeError`, which no code in the repository defines or
raises. -/
theorem raw_to_dataframe_C1_counterexample :
    raw_to_dataframe [missingHourlyPayload] = .error (.keyError "hourly") ∧
    raw_to_dataframe [raggedPayload] = .error .valueError ∧
    (PyError.keyError "hourly" ≠ .dataShapeError) ∧
    (PyError.valueError ≠ .dataShapeError) :=
  ⟨rfl, rfl, by decide, by decide⟩

/-- Every error produced by `payloadFrame` is the `KeyError` of the missing
hourly block or the `ValueError` of the ragged-array frame constructor. -/
lemma payloadFrame_error_kind (p : Payload) (e : PyError)
    (h : payloadFrame p = .error e) : e = .keyError "hourly" ∨ e = .valueError := by
  unfold payloadFrame at h
  cases hh : p.hourly with
  | none => rw [hh] at h; exact Or.inl (Except.error.inj h).symm
  | some hr =>
      rw [hh] at h
      by_cases hwf : hr.wellFormed
      · simp [hwf] at h
      · simp [hwf] at h; exact Or.inr h.symm

/-- If some payload's frame construction fails, the whole loop fails with
the error of the first failing payload. -/
lemma collectFrames_error (raws : List Payload) (p : Payload) (hp : p ∈ raws)
    (e₀ : PyError) (hbad : payloadFrame p = .error e₀) :
    ∃ e, collectFrames raws = .error e ∧ ∃ q ∈ raws, payloadFrame q = .error e := by
  induction raws with
  | nil => cases hp
  | cons a l ih =>
      rcases List.mem_cons.mp hp with rfl | hpl
      · refine ⟨e₀, ?_, p, List.mem_cons_self .., hbad⟩
        show (payloadFrame p >>= _) = _
        rw [hbad]; rfl
      · cases hfa : payloadFrame a with
        | error e' =>
            refine ⟨e', ?_, a, List.mem_cons_self .., hfa⟩
            show (payloadFrame a >>= _) = _
            rw [hfa]; rfl
        | ok f =>
            obtain ⟨e, hl, q, hq, hqe⟩ := ih hpl
            refine ⟨e, ?_, q, List.mem_cons_of_mem a hq, hqe⟩
            show (payloadFrame a >>= _) = _
            rw [hfa]
            show (collectFrames l >>= _) = _
            rw [hl]; rfl

/-- C1 amended: a payload sequence containing a payload that is missing its
hourly block, or whose parallel arrays are ragged, is rejected by
`raw_to_dataframe` with an error (`KeyError` / `ValueError`), not silently
truncated; the error is never the spec's `DataShapeError`, which the source
does not define. -/
theorem raw_to_dataframe_C1_amended (raws : List Payload) (p : Payload) (hp : p ∈ raws)
    (hbad : p.hourly = none ∨ ∃ h, p.hourly = some h ∧ h.wellFormed = false) :
    ∃ e, raw_to_dataframe raws = .error e ∧ e ≠ .dataShapeError := by
  have hframe : ∃ e₀, payloadFrame p = .error e₀ := by
    rcases hbad with hnone | ⟨h, hsome, hwf⟩
    · exact ⟨.keyError "hourly", by simp [payloadFrame, hnone]⟩
    · exact ⟨.valueError, by simp [payloadFrame, hsome, hwf]⟩
  obtain ⟨e₀, he₀⟩ := hframe
  obtain ⟨e, hcf, q, _, hqe⟩ := collectFrames_error raws p hp e₀ he₀
  refine ⟨e, ?_, ?_⟩
  · show (collectFrames raws >>= _) = _
    rw [hcf]; rfl
  · rcases payloadFrame_error_kind q e hqe with rfl | rfl <;> decide

/-- C1 witness: the amended rejection theorem applied to the payload with
the missing hourly block. -/
theorem raw_to_dataframe_C1_witness :
    ∃ e, raw_to_dataframe [missingHourlyPayload] = .error e ∧ e ≠ .dataShapeError :=
  raw_to_dataframe_C1_amended [missingHourlyPayload] missingHourlyPayload
    (List.mem_cons_self ..) (Or.inl rfl)

/-- A single-city, single-hour payload that also carries a `state` field. -/
def singleHourStatePayload : Payload :=
  { city_name := "Recife", lat := -8, lon := -35, state := some "PE",
    hourly := some { time := [7], temperature_2m := [28],
                     relative_humidity_2m := [70], precipitation := [1/2],
                     wind_speed_10m := [12], cloud_cover := [40] } }

/-- C10 counterexample: for a single-city single-hour payload carrying a
`state` field, normalizing succeeds but `aggregate_daily_stats` raises
`ValueError` (the hard-coded list of 11 column names is assigned to the 12
columns of the agg result), so the round trip yields no DailyAggregate
row. -/
theorem roundtrip_C10_counterexample :
    (raw_to_dataframe [singleHourStatePayload] >>= aggregate_daily_stats) =
      .error .valueError ∧
    (raw_to_dataframe [singleHourStatePayload]).isOk = true :=
  ⟨rfl, rfl⟩

/-- C10 amended: for every single-city payload without state/region fields
whose hourly series contains exactly one hour, normalizing and then
aggregating yields exactly one DailyAggregate row whose mean/min/max
temperature all equal that hour's temperature and whose other statistics
equal that hour's respective values exactly. -/
theorem roundtrip_C10_amended (p : Payload) (h : Hourly)
    (hp : p.hourly = some h) (hs : p.state = none) (hr : p.region = none)
    (t : Time) (v hum pr w cc : ℚ)
    (ht : h.time = [t]) (htemp : h.temperature_2m = [v])
    (hhum : h.relative_humidity_2m = [hum]) (hprec : h.precipitation = [pr])
    (hwind : h.wind_speed_10m = [w]) (hcc : h.cloud_cover = [cc]) :
    (raw_to_dataframe [p] >>= aggregate_daily_stats) =
      .ok [{ city := p.city_name, date := t / 24, temp_mean := v, temp_min := v,
             temp_max := v, humidity_mean := hum, precipitation_total := pr,
             wind_max := w, cloud_cover_mean := cc,
             latitude := p.lat, longitude := p.lon }] := by
  have hwf : h.wellFormed = true := by
    simp [Hourly.wellFormed, ht, htemp, hhum, hprec, hwind, hcc]
  have hpf : payloadFrame p =
      .ok [⟨t, v, hum, pr, w, cc, p.city_name, p.lat, p.lon, none, none, none, false⟩] := by
    simp [payloadFrame, hp, hwf, ht, htemp, hhum, hprec, hwind, hcc, hs, hr,
      show List.range 1 = [0] from rfl]
  have hcf : collectFrames [p] =
      .ok [[⟨t, v, hum, pr, w, cc, p.city_name, p.lat, p.lon, none, none, none, false⟩]] := by
    show (payloadFrame p >>= _) = _
    rw [hpf]; rfl
  have hraw : raw_to_dataframe [p] =
      .ok { rows := [⟨t, v, hum, pr, w, cc, p.city_name, p.lat, p.lon, none, none, none, false⟩],
            hasCols := true, hasState := false, hasRegion := false } := by
    show (collectFrames [p] >>= _) = _
    rw [hcf]
    simp [Bind.bind, Except.bind, Pure.pure, Except.pure, hs, hr]
  have hbind : (raw_to_dataframe [p] >>= aggregate_daily_stats) =
      aggregate_daily_stats
        { rows := [⟨t, v, hum, pr, w, cc, p.city_name, p.lat, p.lon, none, none, none, false⟩],
          hasCols := true, hasState := false, hasRegion := false } := by
    rw [hraw]; rfl
  rw [hbind]
  simp [aggregate_daily_stats, groupDaily, pdUnique, pdUniqueAux, sortStable, insertLe,
    dateOf, qmean, qmin, qmax]

/-- C10 witness: the amended round trip at a concrete stateless payload with
a single hour at stamp 30 (date 1). -/
theorem roundtrip_C10_witness :
    (raw_to_dataframe
        [{ city_name := "Recife", lat := -8, lon := -35,
           hourly := some { time := [30], temperature_2m := [28],
                            relative_humidity_2m := [70], precipitation := [1/2],
                            wind_speed_10m := [12], cloud_cover := [40] } }] >>=
      aggregate_daily_stats) =
      .ok [{ city := "Recife", date := 1, temp_mean := 28, temp_min := 28,
             temp_max := 28, humidity_mean := 70, precipitation_total := 1/2,
             wind_max := 12, cloud_cover_mean := 40,
             latitude := -8, longitude := -35 }] :=
  roundtrip_C10_amended _ _ rfl rfl rfl 30 28 70 (1/2) 12 40 rfl rfl rfl rfl rfl rfl

/-- The sub-table of the rows matching one region key
(`df[df['region'] == region]`). -/
def regionSub (tbl : Table) (key : Option String) : Table :=
  { tbl with rows := tbl.rows.filter (matchRegion key) }

/-- Read one scalar out of a statistics dict. -/
def statLookup (stats : List (String × ℚ)) (k : String) : ℚ :=
  (stats.lookup k).getD 0

/-- A two-city table with a populated region column and no anomaly
column. -/
def regionTable : Table :=
  { rows := [{ mkObs 0 "Recife" 28 70 0 10 30 with region := some "Nordeste" },
             { mkObs 1 "Natal" 30 65 1 12 20 with region := some "Nordeste" }],
    hasCols := true, hasState := false, hasRegion := true }

/-- Every element of `pdUniqueAux l seen` comes from `l`. -/
lemma mem_of_mem_pdUniqueAux {α : Type} [DecidableEq α] :
    ∀ (l seen : List α) (a : α), a ∈ pdUniqueAux l seen → a ∈ l := by
  intro l
  induction l with
  | nil => intro seen a h; cases h
  | cons x xs ih =>
      intro seen a h
      simp only [pdUniqueAux] at h
      by_cases hx : x ∈ seen
      · rw [if_pos hx] at h
        exact List.mem_cons_of_mem x (ih _ _ h)
      · rw [if_neg hx] at h
        rcases List.mem_cons.mp h with rfl | h2
        · exact List.mem_cons_self ..
        · exact List.mem_cons_of_mem x (ih _ _ h2)

/-- Every element of `pdUnique l` comes from `l`. -/
lemma mem_of_mem_pdUnique {α : Type} [DecidableEq α] {l : List α} {a : α}
    (h : a ∈ pdUnique l) : a ∈ l :=
  mem_of_mem_pdUniqueAux l [] a h

/-- Looking up a key of a key-indexed map of pairs returns its image. -/
lemma lookup_map_pair {α β : Type} [BEq α] [LawfulBEq α] (f : α → β) (l : List α) (a : α)
    (ha : a ∈ l) : (l.map fun x => (x, f x)).lookup a = some (f a) := by
  induction l with
  | nil => cases ha
  | cons x xs ih =>
      by_cases hax : a = x
      · subst hax; simp [List.lookup]
      · have hbeq : (a == x) = false := by simpa using hax
        have h2 : a ∈ xs := by
          rcases List.mem_cons.mp ha with rfl | h
          · exact absurd rfl hax
          · exact h
        simpa [List.lookup, hbeq] using ih h2

/-- C9 counterexample: with a populated region column, the per-region dict
exists but contains no `total_records` and no `anomalies_detected` key, so
it is not the same scalar set as the cross-city summary. -/
theorem get_regional_statistics_C9_counterexample :
    ((get_regional_statistics regionTable).lookup (some "Nordeste")).isSome = true ∧
    (((get_regional_statistics regionTable).lookup (some "Nordeste")).getD []).lookup
      "total_records" = none ∧
    (((get_regional_statistics regionTable).lookup (some "Nordeste")).getD []).lookup
      "anomalies_detected" = none :=
  ⟨rfl, rfl, rfl⟩

/-- C9 amended: keyed by each distinct region value, the regional summary
holds exactly the seven scalars city count, mean/max/min temperature, mean
humidity, total precipitation and max wind speed, each agreeing with the
cross-city summary computed over that region's rows (record count and
anomaly count are not included); with no region column the mapping is
empty. -/
theorem get_regional_statistics_C9_amended (tbl : Table) (hrg : tbl.hasRegion = true)
    (s : String) (hmem : some s ∈ pdUnique (tbl.rows.map (·.region))) :
    ((get_regional_statistics tbl).lookup (some s) = some
      [("cities",
        statLookup (get_summary_statistics (regionSub tbl (some s))) "total_cities"),
       ("avg_temperature",
        statLookup (get_summary_statistics (regionSub tbl (some s))) "avg_temperature"),
       ("max_temperature",
        statLookup (get_summary_statistics (regionSub tbl (some s))) "max_temperature"),
       ("min_temperature",
        statLookup (get_summary_statistics (regionSub tbl (some s))) "min_temperature"),
       ("avg_humidity",
        statLookup (get_summary_statistics (regionSub tbl (some s))) "avg_humidity"),
       ("total_precipitation",
        statLookup (get_summary_statistics (regionSub tbl (some s))) "total_precipitation"),
       ("max_wind_speed",
        statLookup (get_summary_statistics (regionSub tbl (some s))) "max_wind_speed")]) ∧
    ∀ tbl' : Table, tbl'.hasRegion = false → get_regional_statistics tbl' = [] := by
  constructor
  · have hrows : some s ∈ tbl.rows.map (·.region) := mem_of_mem_pdUnique hmem
    obtain ⟨r, hr, hreg⟩ := List.mem_map.mp hrows
    have hne : tbl.rows ≠ [] := by
      intro h; rw [h] at hr; cases hr
    have hie : tbl.rows.isEmpty = false := by
      cases htr : tbl.rows with
      | nil => exact absurd htr hne
      | cons a l => rfl
    have hrsub : r ∈ tbl.rows.filter (matchRegion (some s)) :=
      List.mem_filter.mpr ⟨hr, by simp [matchRegion, hreg]⟩
    have hsubie : (tbl.rows.filter (matchRegion (some s))).isEmpty = false := by
      cases htr : tbl.rows.filter (matchRegion (some s)) with
      | nil => rw [htr] at hrsub; cases hrsub
      | cons a l => rfl
    simp only [get_regional_statistics, hie, hrg, Bool.not_true, Bool.or_self,
      Bool.false_eq_true, if_false]
    rw [lookup_map_pair _ _ _ hmem]
    simp only [get_summary_statistics, regionSub, hsubie, Bool.false_eq_true, if_false,
      statLookup, List.lookup]
    simp
  · intro tbl' h
    simp [get_regional_statistics, h]

/-- C9 witness: the amended theorem at the concrete two-city region table,
with the seven scalars evaluated. -/
theorem get_regional_statistics_C9_witness :
    (get_regional_statistics regionTable).lookup (some "Nordeste") = some
      [("cities", 2), ("avg_temperature", 29), ("max_temperature", 30),
       ("min_temperature", 28), ("avg_humidity", 135/2),
       ("total_precipitation", 1), ("max_wind_speed", 12)] := by
  have h := (get_regional_statistics_C9_amended regionTable rfl "Nordeste" (by decide)).1
  rw [h]
  norm_num [statLookup, get_summary_statistics, regionSub, regionTable, matchRegion, mkObs,
    nuniqueCities, pdUnique, pdUniqueAux, qmean, qmax, qmin, List.lookup]
  simp only [String.reduceBEq, String.reduceEq, if_false, Option.getD_some]
  norm_num

/-- The sample variance is non-negative. -/
lemma sampleVar_nonneg (l : List ℚ) : 0 ≤ sampleVar l := by
  apply div_nonneg
  · apply List.sum_nonneg
    intro x hx
    obtain ⟨y, _, rfl⟩ := List.mem_map.mp hx
    exact sq_nonneg _
  · exact_mod_cast Nat.zero_le _

/-- A constant series has sample variance zero. -/
lemma sampleVar_const (l : List ℚ) (v : ℚ) (h : ∀ x ∈ l, x = v) : sampleVar l = 0 := by
  cases l with
  | nil => simp [sampleVar]
  | cons a as =>
      have hlen : (((a :: as).length : ℕ) : ℚ) ≠ 0 := by
        simp only [List.length_cons, Nat.cast_add, Nat.cast_one]
        positivity
      have hsum0 : (a :: as).sum = ((a :: as).length : ℚ) * v := by
        conv_lhs => rw [List.eq_replicate_of_mem h]
        rw [List.sum_replicate, nsmul_eq_mul]
      have hmean : qmean (a :: as) = v := by
        rw [qmean, hsum0, mul_comm, mul_div_assoc, div_self hlen, mul_one]
      have hterm : ∀ x ∈ (a :: as).map (fun x => (x - qmean (a :: as)) ^ 2), x = 0 := by
        intro x hx
        obtain ⟨y, hy, rfl⟩ := List.mem_map.mp hx
        rw [h y hy, hmean]; ring
      have hsum : ((a :: as).map (fun x => (x - qmean (a :: as)) ^ 2)).sum = 0 := by
        rw [List.eq_replicate_of_mem hterm, List.sum_replicate]
        simp
      rw [sampleVar, hsum, zero_div]

/-- The executable squared anomaly test agrees with the source's formulation
`std > 0 and |value - mean| > threshold * std`, where `std` is the real
square root of the sample variance, for any non-negative threshold. -/
lemma anomalyFlag_iff_real (t : ℚ) (ht : 0 ≤ t) (temps : List ℚ) (v : ℚ) :
    anomalyFlag t temps v = true ↔
      (0 < Real.sqrt (sampleVar temps) ∧
        (t : ℝ) * Real.sqrt (sampleVar temps) <
          |(v : ℝ) - (qmean temps : ℝ)|) := by
  have hs : (0 : ℝ) ≤ ((sampleVar temps : ℚ) : ℝ) := by
    exact_mod_cast sampleVar_nonneg temps
  rw [anomalyFlag, decide_eq_true_eq]
  constructor
  · rintro ⟨h1, h2⟩
    have h1' : (0 : ℝ) < ((sampleVar temps : ℚ) : ℝ) := by exact_mod_cast h1
    refine ⟨Real.sqrt_pos.mpr h1', ?_⟩
    have h2' : (t : ℝ) ^ 2 * ((sampleVar temps : ℚ) : ℝ) <
        ((v : ℝ) - ((qmean temps : ℚ) : ℝ)) ^ 2 := by exact_mod_cast h2
    have ha : (0 : ℝ) ≤ (t : ℝ) * Real.sqrt (sampleVar temps) :=
      mul_nonneg (by exact_mod_cast ht) (Real.sqrt_nonneg _)
    have hb : (0 : ℝ) ≤ |(v : ℝ) - ((qmean temps : ℚ) : ℝ)| := abs_nonneg _
    refine (pow_lt_pow_iff_left₀ ha hb (two_ne_zero)).mp ?_
    calc ((t : ℝ) * Real.sqrt (sampleVar temps)) ^ 2
        = (t : ℝ) ^ 2 * ((sampleVar temps : ℚ) : ℝ) := by
          rw [mul_pow, Real.sq_sqrt hs]
      _ < ((v : ℝ) - ((qmean temps : ℚ) : ℝ)) ^ 2 := h2'
      _ = |(v : ℝ) - ((qmean temps : ℚ) : ℝ)| ^ 2 := (sq_abs _).symm
  · rintro ⟨h1, h2⟩
    have hvar : (0 : ℝ) < ((sampleVar temps : ℚ) : ℝ) := Real.sqrt_pos.mp h1
    refine ⟨by exact_mod_cast hvar, ?_⟩
    have ha : (0 : ℝ) ≤ (t : ℝ) * Real.sqrt (sampleVar temps) :=
      mul_nonneg (by exact_mod_cast ht) (Real.sqrt_nonneg _)
    have hb : (0 : ℝ) ≤ |(v : ℝ) - ((qmean temps : ℚ) : ℝ)| := abs_nonneg _
    have h2' : (t : ℝ) ^ 2 * ((sampleVar temps : ℚ) : ℝ) <
        ((v : ℝ) - ((qmean temps : ℚ) : ℝ)) ^ 2 := by
      calc (t : ℝ) ^ 2 * ((sampleVar temps : ℚ) : ℝ)
          = ((t : ℝ) * Real.sqrt (sampleVar temps)) ^ 2 := by
            rw [mul_pow, Real.sq_sqrt hs]
        _ < |(v : ℝ) - ((qmean temps : ℚ) : ℝ)| ^ 2 :=
            (pow_lt_pow_iff_left₀ ha hb (two_ne_zero)).mpr h2
        _ = ((v : ℝ) - ((qmean temps : ℚ) : ℝ)) ^ 2 := sq_abs _
    exact_mod_cast h2'

/-- A three-row table with one city and a constant temperature series. -/
def constTable : Table :=
  { rows := [mkObs 0 "A" 20 60 0 10 30, mkObs 1 "A" 20 60 0 10 30,
             mkObs 2 "A" 20 60 0 10 30],
    hasCols := true, hasState := false, hasRegion := false }

/-- C4: `detect_anomalies` flags a row as anomalous iff the city-wide
standard deviation is positive and the row's deviation from the city-wide
mean exceeds threshold times that standard deviation; in particular a city
with a constant temperature series gets no flags. -/
theorem detect_anomalies_C4 (t : ℚ) (ht : 0 ≤ t) (tbl : Table) :
    (∀ r, r ∈ (detect_anomalies t tbl).rows →
      (r.temp_anomaly = true ↔
        (0 < Real.sqrt (sampleVar (cityTemps tbl.rows r.city)) ∧
          (t : ℝ) * Real.sqrt (sampleVar (cityTemps tbl.rows r.city)) <
            |(r.temperature_2m : ℝ) - (qmean (cityTemps tbl.rows r.city) : ℝ)|))) ∧
    (∀ c v, (∀ r, r ∈ tbl.rows → r.city = c → r.temperature_2m = v) →
      ∀ r, r ∈ (detect_anomalies t tbl).rows → r.city = c → r.temp_anomaly = false) := by
  constructor
  · intro r hr
    obtain ⟨r₀, hr₀, rfl⟩ := List.mem_map.mp hr
    simpa using anomalyFlag_iff_real t ht (cityTemps tbl.rows r₀.city) r₀.temperature_2m
  · intro c v hconst r hr hc
    obtain ⟨r₀, hr₀, rfl⟩ := List.mem_map.mp hr
    have hc₀ : r₀.city = c := by simpa using hc
    have hallv : ∀ x ∈ cityTemps tbl.rows r₀.city, x = v := by
      intro x hx
      obtain ⟨y, hy, rfl⟩ := List.mem_map.mp hx
      have hyc : y.city = r₀.city := by
        have := (List.mem_filter.mp hy).2
        simpa using this
      exact hconst y (List.mem_filter.mp hy).1 (hyc.trans hc₀)
    have hvar : sampleVar (cityTemps tbl.rows r₀.city) = 0 :=
      sampleVar_const _ v hallv
    simp [anomalyFlag, hvar]

/-- C4 witness: with threshold 2 and the constant-series table, no row is
flagged. -/
theorem detect_anomalies_C4_witness :
    ((detect_anomalies 2 constTable).rows.all fun r => !r.temp_anomaly) = true := by
  rw [List.all_eq_true]
  intro r hr
  have hc : r.city = "A" := by
    obtain ⟨r₀, hr₀, rfl⟩ := List.mem_map.mp hr
    have hall : ∀ x ∈ constTable.rows, x.city = "A" := by decide
    simpa using hall r₀ hr₀
  have hfalse := (detect_anomalies_C4 2 (by norm_num) constTable).2 "A" 20
    (by decide) r hr hc
  simp [hfalse]


/-- Mean of a one-element series is that element. -/
lemma qmean_singleton (x : ℚ) : qmean [x] = x := by
  simp [qmean]

/-- The rolling-mean series has one entry per input position. -/
lemma rollingMeanMinp1_length (W : ℕ) (xs : List ℚ) :
    (rollingMeanMinp1 W xs).length = xs.length := by
  simp [rollingMeanMinp1]

/-- Entry `i` of the rolling-mean series is the mean of the trailing
window ending at position `i`. -/
lemma rollingMeanMinp1_getElem? (W : ℕ) (xs : List ℚ) (i : ℕ) (h : i < xs.length) :
    (rollingMeanMinp1 W xs)[i]? = some (qmean ((xs.take (i + 1)).drop (i + 1 - W))) := by
  simp [rollingMeanMinp1, List.getElem?_map, List.getElem?_range h]

/-- The rows of city `c` in the output of the masked assignment carry the
consecutive positions of `c`'s series starting at the counter's current
value. -/
lemma assignMa_filter_city (ma : String → List ℚ) (c : String) :
    ∀ (rows : List Obs) (cnt : String → ℕ),
      cnt c + rows.countP (fun r => decide (r.city = c)) = (ma c).length →
      ((assignMa ma rows cnt).filter fun r => decide (r.city = c)).map (·.temp_ma)
        = ((ma c).drop (cnt c)).map some := by
  intro rows
  induction rows with
  | nil =>
      intro cnt hlen
      have h1 : cnt c = (ma c).length := by simpa using hlen
      simp [assignMa, h1, List.drop_length]
  | cons r rest ih =>
      intro cnt hlen
      rw [List.countP_cons] at hlen
      by_cases hc : r.city = c
      · rw [hc] at hlen
        simp at hlen
        have hlt : cnt c < (ma c).length := by omega
        have htail := ih (fun c2 => if c2 = r.city then cnt c2 + 1 else cnt c2)
          (by simp only [if_pos hc.symm]; omega)
        simp only [if_pos hc.symm] at htail
        rw [show assignMa ma (r :: rest) cnt =
            { r with temp_ma := (ma r.city)[cnt r.city]? } ::
              assignMa ma rest (fun c2 => if c2 = r.city then cnt c2 + 1 else cnt c2) from rfl,
          List.filter_cons_of_pos (by simpa using hc), List.map_cons]
        dsimp only
        rw [hc] at htail ⊢
        rw [List.getElem?_eq_getElem hlt, htail, List.drop_eq_getElem_cons hlt, List.map_cons]
      · have hcr : ¬ (c = r.city) := fun h => hc h.symm
        simp [hc] at hlen
        have htail := ih (fun c2 => if c2 = r.city then cnt c2 + 1 else cnt c2)
          (by simp only [if_neg hcr]; omega)
        simp only [if_neg hcr] at htail
        rw [show assignMa ma (r :: rest) cnt =
            { r with temp_ma := (ma r.city)[cnt r.city]? } ::
              assignMa ma rest (fun c2 => if c2 = r.city then cnt c2 + 1 else cnt c2) from rfl,
          List.filter_cons_of_neg (by simpa using hc)]
        exact htail

/-- C5: for every non-empty per-city series, every output row of that city
has a defined `temp_ma` equal to the trailing mean over the available rows
of the window (`min_periods = 1`), and the first row's `temp_ma` equals
that row's own temperature. -/
theorem calculate_moving_averages_C5 (W : ℕ) (hW : 1 ≤ W) (tbl : Table) (c : String)
    (hne : cityTemps tbl.rows c ≠ []) :
    (((calculate_moving_averages W tbl).rows.filter fun r => decide (r.city = c)).map (·.temp_ma)
        = (rollingMeanMinp1 W (cityTemps tbl.rows c)).map some) ∧
    (∀ i, i < (cityTemps tbl.rows c).length →
      (rollingMeanMinp1 W (cityTemps tbl.rows c)).getD i 0 =
        qmean (((cityTemps tbl.rows c).take (i + 1)).drop (i + 1 - W))) ∧
    (rollingMeanMinp1 W (cityTemps tbl.rows c)).getD 0 0 =
      (cityTemps tbl.rows c).getD 0 0 := by
  have hlen0 : (0 : ℕ) + tbl.rows.countP (fun r => decide (r.city = c)) =
      ((fun c2 => rollingMeanMinp1 W (cityTemps tbl.rows c2)) c).length := by
    simp [rollingMeanMinp1_length, cityTemps, List.countP_eq_length_filter]
  refine ⟨?_, ?_, ?_⟩
  · have h := assignMa_filter_city (fun c2 => rollingMeanMinp1 W (cityTemps tbl.rows c2)) c
      tbl.rows (fun _ => 0) hlen0
    simpa [calculate_moving_averages] using h
  · intro i hi
    have hgd := rollingMeanMinp1_getElem? W (cityTemps tbl.rows c) i hi
    rw [List.getD_eq_getElem?_getD, hgd]
    rfl
  · have hlen : 0 < (cityTemps tbl.rows c).length := List.length_pos.mpr hne
    have hgd := rollingMeanMinp1_getElem? W (cityTemps tbl.rows c) 0 hlen
    have h1W : 1 - W = 0 := Nat.sub_eq_zero_of_le hW
    rw [List.getD_eq_getElem?_getD, hgd]
    cases hx : cityTemps tbl.rows c with
    | nil => exact absurd hx hne
    | cons a as =>
        simp [h1W, qmean_singleton]

/-- C5 witness: window 3 over the three-row one-city table. -/
theorem calculate_moving_averages_C5_witness :
    (((calculate_moving_averages 3 constTable).rows.filter fun r =>
        decide (r.city = "A")).map (·.temp_ma)
      = (rollingMeanMinp1 3 (cityTemps constTable.rows "A")).map some) ∧
    (rollingMeanMinp1 3 (cityTemps constTable.rows "A")).getD 0 0 =
      (cityTemps constTable.rows "A").getD 0 0 := by
  have h := calculate_moving_averages_C5 3 (by norm_num) constTable "A" (by decide)
  exact ⟨h.1, h.2.2⟩

/-- The accumulator pass of `pdUnique` produces a duplicate-free list
disjoint from the seen set. -/
lemma pdUniqueAux_spec {α : Type} [DecidableEq α] :
    ∀ (l seen : List α), (pdUniqueAux l seen).Nodup ∧ ∀ a ∈ pdUniqueAux l seen, a ∉ seen := by
  intro l
  induction l with
  | nil => intro seen; simp [pdUniqueAux]
  | cons x xs ih =>
      intro seen
      by_cases hx : x ∈ seen
      · simpa [pdUniqueAux, hx] using ih seen
      · obtain ⟨hnd, hmem⟩ := ih (x :: seen)
        refine ⟨?_, ?_⟩
        · simp only [pdUniqueAux, if_neg hx, List.nodup_cons]
          exact ⟨fun hmem2 => (hmem x hmem2) (List.mem_cons_self ..), hnd⟩
        · intro a ha
          simp only [pdUniqueAux, if_neg hx] at ha
          rcases List.mem_cons.mp ha with rfl | h2
          · exact hx
          · exact fun hs => (hmem a h2) (List.mem_cons_of_mem x hs)

/-- The distinct-values list has no duplicates. -/
lemma pdUnique_nodup {α : Type} [DecidableEq α] (l : List α) : (pdUnique l).Nodup :=
  (pdUniqueAux_spec l []).1

/-- A finding for city `c` exists in the per-city detector scan iff the
detector fires on `c`, provided each finding records its own city. -/
lemma filterMap_exists_iff {F : Type} (f : String → Option F) (city : F → String)
    (hf : ∀ c x, f c = some x → city x = c) (cs : List String) (c : String) (hc : c ∈ cs) :
    (∃ x, x ∈ cs.filterMap f ∧ city x = c) ↔ (f c).isSome = true := by
  constructor
  · rintro ⟨x, hx, hcity⟩
    obtain ⟨c2, hc2, hfc⟩ := List.mem_filterMap.mp hx
    have he : c2 = c := by rw [← hcity, hf c2 x hfc]
    rw [← he, hfc]
    rfl
  · intro h
    obtain ⟨x, hfx⟩ := Option.isSome_iff_exists.mp h
    exact ⟨x, List.mem_filterMap.mpr ⟨c, hc, hfx⟩, hf c x hfx⟩

/-- Any property of the detector's output on `c` holds for every finding of
city `c` in the scan. -/
lemma forall_mem_filterMap {F : Type} (f : String → Option F) (city : F → String)
    (hf : ∀ c x, f c = some x → city x = c) (cs : List String) (c : String) (P : F → Prop)
    (hall : ∀ x, f c = some x → P x) :
    ∀ x, x ∈ cs.filterMap f → city x = c → P x := by
  intro x hx hcity
  obtain ⟨c2, hc2, hfc⟩ := List.mem_filterMap.mp hx
  have he : c2 = c := by rw [← hcity, hf c2 x hfc]
  exact hall x (he ▸ hfc)

/-- Over a duplicate-free city list, each city contributes at most one
finding to the scan. -/
lemma countP_city_filterMap {F : Type} (f : String → Option F) (city : F → String)
    (hf : ∀ c x, f c = some x → city x = c) :
    ∀ (cs : List String), cs.Nodup → ∀ c : String,
      ((cs.filterMap f).countP fun x => decide (city x = c)) ≤ 1 := by
  intro cs
  induction cs with
  | nil => intro _ c; simp
  | cons a l ih =>
      intro hnd c
      have hndl : l.Nodup := hnd.of_cons
      have hmemcity : ∀ y ∈ l.filterMap f, city y ∈ l := by
        intro y hy
        obtain ⟨c2, hc2, hfc⟩ := List.mem_filterMap.mp hy
        rw [hf c2 y hfc]
        exact hc2
      cases hfa : f a with
      | none => simpa [List.filterMap_cons, hfa] using ih hndl c
      | some x =>
          rw [List.filterMap_cons, hfa, List.countP_cons]
          by_cases hxc : city x = c
          · have hac : a = c := by rw [← hxc, hf a x hfa]
            have hzero : ((l.filterMap f).countP fun y => decide (city y = c)) = 0 := by
              rw [List.countP_eq_zero]
              intro y hy
              simp only [decide_eq_true_eq]
              intro h2
              have haml : a ∈ l := by
                rw [hac, ← h2]
                exact hmemcity y hy
              exact (List.nodup_cons.mp hnd).1 haml
            rw [hzero]
            simp [hxc]
          · simpa [hxc] using ih hndl c

/-- A position qualifies for the cold-front filter iff it is in range, at
least 24, and its 24-row temperature change is below −10. -/
lemma mem_coldFrontPositions (temps : List ℚ) (i : ℕ) :
    i ∈ coldFrontPositions temps ↔
      24 ≤ i ∧ i < temps.length ∧ tempChange24 temps i < -10 := by
  simp [coldFrontPositions, List.mem_filter, List.mem_range]
  tauto

/-- With no qualifying position the cold-front detector returns nothing. -/
lemma coldFrontFinding_none (rows : List Obs) (c : String)
    (h : coldFrontPositions ((citySorted rows c).map (·.temperature_2m)) = []) :
    coldFrontFinding rows c = none := by
  simp [coldFrontFinding, h]

/-- With a qualifying position the cold-front detector records the minimum
qualifying drop and the first qualifying hour's time. -/
lemma coldFrontFinding_some (rows : List Obs) (c : String) (i : ℕ) (rest : List ℕ)
    (h : coldFrontPositions ((citySorted rows c).map (·.temperature_2m)) = i :: rest) :
    coldFrontFinding rows c = some
      { city := c
        temp_drop := qmin ((coldFrontPositions ((citySorted rows c).map (·.temperature_2m))).map
          (tempChange24 ((citySorted rows c).map (·.temperature_2m))))
        time := ((citySorted rows c).map (·.time)).getD
          ((coldFrontPositions ((citySorted rows c).map (·.temperature_2m))).headD 0) 0 } := by
  simp [coldFrontFinding, h]

/-- A cold-front finding records the city it was computed for. -/
lemma coldFrontFinding_city (rows : List Obs) (c : String) (x : ColdFront)
    (h : coldFrontFinding rows c = some x) : x.city = c := by
  cases hq : coldFrontPositions ((citySorted rows c).map (·.temperature_2m)) with
  | nil => rw [coldFrontFinding_none rows c hq] at h; cases h
  | cons i rest =>
      rw [coldFrontFinding_some rows c i rest hq] at h
      rw [← Option.some.inj h]

/-- C7: a ColdFront finding for a city exists iff some position `i ≥ 24` of
its time-sorted series has `temperature_2m[i] − temperature_2m[i−24] < −10`
(a row-lag difference, not a calendar lookback); at most one finding per
city; the finding records the minimum qualifying difference as `temp_drop`
and the timestamp of the first qualifying hour. -/
theorem detect_weather_patterns_C7 (tbl : Table) (c : String)
    (hc : c ∈ pdUnique (tbl.rows.map (·.city))) :
    ((∃ cf, cf ∈ (detect_weather_patterns tbl).cold_fronts ∧ cf.city = c) ↔
      (∃ i, 24 ≤ i ∧ i < ((citySorted tbl.rows c).map (·.temperature_2m)).length ∧
        tempChange24 ((citySorted tbl.rows c).map (·.temperature_2m)) i < -10)) ∧
    (((detect_weather_patterns tbl).cold_fronts.countP fun cf => decide (cf.city = c)) ≤ 1) ∧
    (∀ cf, cf ∈ (detect_weather_patterns tbl).cold_fronts → cf.city = c →
      cf.temp_drop =
        qmin ((coldFrontPositions ((citySorted tbl.rows c).map (·.temperature_2m))).map
          (tempChange24 ((citySorted tbl.rows c).map (·.temperature_2m)))) ∧
      cf.time = ((citySorted tbl.rows c).map (·.time)).getD
        ((coldFrontPositions ((citySorted tbl.rows c).map (·.temperature_2m))).headD 0) 0) := by
  have hcrows : c ∈ tbl.rows.map (·.city) := mem_of_mem_pdUnique hc
  have hne : tbl.rows ≠ [] := by
    intro h
    rw [h] at hcrows
    cases hcrows
  have hie : tbl.rows.isEmpty = false := by
    cases htr : tbl.rows with
    | nil => exact absurd htr hne
    | cons a l => rfl
  have hP : (detect_weather_patterns tbl).cold_fronts =
      (pdUnique (tbl.rows.map (·.city))).filterMap (coldFrontFinding tbl.rows) := by
    simp [detect_weather_patterns, hie]
  refine ⟨?_, ?_, ?_⟩
  · rw [hP, filterMap_exists_iff (coldFrontFinding tbl.rows) ColdFront.city
      (coldFrontFinding_city tbl.rows) _ c hc]
    constructor
    · intro h
      cases hq : coldFrontPositions ((citySorted tbl.rows c).map (·.temperature_2m)) with
      | nil => rw [coldFrontFinding_none _ _ hq] at h; cases h
      | cons i rest =>
          have hi : i ∈ coldFrontPositions ((citySorted tbl.rows c).map (·.temperature_2m)) := by
            rw [hq]
            exact List.mem_cons_self ..
          obtain ⟨h1, h2, h3⟩ := (mem_coldFrontPositions _ _).mp hi
          exact ⟨i, h1, h2, h3⟩
    · rintro ⟨i, h1, h2, h3⟩
      have hi : i ∈ coldFrontPositions ((citySorted tbl.rows c).map (·.temperature_2m)) :=
        (mem_coldFrontPositions _ _).mpr ⟨h1, h2, h3⟩
      cases hq : coldFrontPositions ((citySorted tbl.rows c).map (·.temperature_2m)) with
      | nil => rw [hq] at hi; cases hi
      | cons j rest =>
          rw [coldFrontFinding_some _ _ j rest hq]
          rfl
  · rw [hP]
    exact countP_city_filterMap _ ColdFront.city (coldFrontFinding_city tbl.rows) _
      (pdUnique_nodup _) c
  · rw [hP]
    refine forall_mem_filterMap _ ColdFront.city (coldFrontFinding_city tbl.rows) _ c _ ?_
    intro x hx
    cases hq : coldFrontPositions ((citySorted tbl.rows c).map (·.temperature_2m)) with
    | nil => rw [coldFrontFinding_none _ _ hq] at hx; cases hx
    | cons i rest =>
        rw [coldFrontFinding_some _ _ i rest hq] at hx
        rw [← Option.some.inj hx]
        constructor <;> simp only [hq]

/-- A 25-hour one-city series whose hour 24 is 12 degrees colder than
hour 0. -/
def coldTable : Table :=
  { rows := [mkObs 0 "A" 20 60 0 10 30, mkObs 1 "A" 20 60 0 10 30, mkObs 2 "A" 20 60 0 10 30, mkObs 3 "A" 20 60 0 10 30, mkObs 4 "A" 20 60 0 10 30, mkObs 5 "A" 20 60 0 10 30, mkObs 6 "A" 20 60 0 10 30, mkObs 7 "A" 20 60 0 10 30, mkObs 8 "A" 20 60 0 10 30, mkObs 9 "A" 20 60 0 10 30, mkObs 10 "A" 20 60 0 10 30, mkObs 11 "A" 20 60 0 10 30, mkObs 12 "A" 20 60 0 10 30, mkObs 13 "A" 20 60 0 10 30, mkObs 14 "A" 20 60 0 10 30, mkObs 15 "A" 20 60 0 10 30, mkObs 16 "A" 20 60 0 10 30, mkObs 17 "A" 20 60 0 10 30, mkObs 18 "A" 20 60 0 10 30, mkObs 19 "A" 20 60 0 10 30, mkObs 20 "A" 20 60 0 10 30, mkObs 21 "A" 20 60 0 10 30, mkObs 22 "A" 20 60 0 10 30, mkObs 23 "A" 20 60 0 10 30, mkObs 24 "A" 8 60 0 10 30],
    hasCols := true, hasState := false, hasRegion := false }

/-- C7 witness: the 25-hour table with a 12-degree drop at hour 24 yields a
cold-front finding for its city. -/
theorem detect_weather_patterns_C7_witness :
    ∃ cf, cf ∈ (detect_weather_patterns coldTable).cold_fronts ∧ cf.city = "A" := by
  refine (detect_weather_patterns_C7 coldTable "A" (by decide)).1.mpr ⟨24, by norm_num, ?_, ?_⟩
  · norm_num [coldTable, citySorted, sortByTime, sortStable, insertLe, mkObs]
  · norm_num [tempChange24, coldTable, citySorted, sortByTime, sortStable, insertLe, mkObs]

/-- A position qualifies for the heavy-rain filter iff it is in range, at
least 2, and its trailing 3-sample precipitation sum exceeds 30. -/
lemma mem_heavyRainPositions (precs : List ℚ) (i : ℕ) :
    i ∈ heavyRainPositions precs ↔
      2 ≤ i ∧ i < precs.length ∧ 30 < precip3h precs i := by
  simp [heavyRainPositions, List.mem_filter, List.mem_range]
  tauto

/-- With no qualifying position the heavy-rain detector returns nothing. -/
lemma heavyRainFinding_none (rows : List Obs) (c : String)
    (h : heavyRainPositions ((citySorted rows c).map (·.precipitation)) = []) :
    heavyRainFinding rows c = none := by
  simp [heavyRainFinding, h]

/-- With a qualifying position the heavy-rain detector records the maximum
qualifying 3-hour sum and the first qualifying hour's time. -/
lemma heavyRainFinding_some (rows : List Obs) (c : String) (i : ℕ) (rest : List ℕ)
    (h : heavyRainPositions ((citySorted rows c).map (·.precipitation)) = i :: rest) :
    heavyRainFinding rows c = some
      { city := c
        precipitation_3h := qmax ((heavyRainPositions ((citySorted rows c).map (·.precipitation))).map
          (precip3h ((citySorted rows c).map (·.precipitation))))
        time := ((citySorted rows c).map (·.time)).getD
          ((heavyRainPositions ((citySorted rows c).map (·.precipitation))).headD 0) 0 } := by
  simp [heavyRainFinding, h]

/-- A heavy-rain finding records the city it was computed for. -/
lemma heavyRainFinding_city (rows : List Obs) (c : String) (x : HeavyRainEvent)
    (h : heavyRainFinding rows c = some x) : x.city = c := by
  cases hq : heavyRainPositions ((citySorted rows c).map (·.precipitation)) with
  | nil => rw [heavyRainFinding_none rows c hq] at h; cases h
  | cons i rest =>
      rw [heavyRainFinding_some rows c i rest hq] at h
      rw [← Option.some.inj h]

/-- C8: a HeavyRainEvent finding for a city exists iff some position
`i ≥ 2` of its time-sorted series has a trailing 3-sample precipitation sum
exceeding 30; at most one finding per city; the finding records the maximum
qualifying sum as `precipitation_3h` and the timestamp of the first
qualifying hour. -/
theorem detect_weather_patterns_C8 (tbl : Table) (c : String)
    (hc : c ∈ pdUnique (tbl.rows.map (·.city))) :
    ((∃ hr, hr ∈ (detect_weather_patterns tbl).heavy_rain_events ∧ hr.city = c) ↔
      (∃ i, 2 ≤ i ∧ i < ((citySorted tbl.rows c).map (·.precipitation)).length ∧
        30 < precip3h ((citySorted tbl.rows c).map (·.precipitation)) i)) ∧
    (((detect_weather_patterns tbl).heavy_rain_events.countP fun hr => decide (hr.city = c)) ≤ 1) ∧
    (∀ hr, hr ∈ (detect_weather_patterns tbl).heavy_rain_events → hr.city = c →
      hr.precipitation_3h =
        qmax ((heavyRainPositions ((citySorted tbl.rows c).map (·.precipitation))).map
          (precip3h ((citySorted tbl.rows c).map (·.precipitation)))) ∧
      hr.time = ((citySorted tbl.rows c).map (·.time)).getD
        ((heavyRainPositions ((citySorted tbl.rows c).map (·.precipitation))).headD 0) 0) := by
  have hcrows : c ∈ tbl.rows.map (·.city) := mem_of_mem_pdUnique hc
  have hne : tbl.rows ≠ [] := by
    intro h
    rw [h] at hcrows
    cases hcrows
  have hie : tbl.rows.isEmpty = false := by
    cases htr : tbl.rows with
    | nil => exact absurd htr hne
    | cons a l => rfl
  have hP : (detect_weather_patterns tbl).heavy_rain_events =
      (pdUnique (tbl.rows.map (·.city))).filterMap (heavyRainFinding tbl.rows) := by
    simp [detect_weather_patterns, hie]
  refine ⟨?_, ?_, ?_⟩
  · rw [hP, filterMap_exists_iff (heavyRainFinding tbl.rows) HeavyRainEvent.city
      (heavyRainFinding_city tbl.rows) _ c hc]
    constructor
    · intro h
      cases hq : heavyRainPositions ((citySorted tbl.rows c).map (·.precipitation)) with
      | nil => rw [heavyRainFinding_none _ _ hq] at h; cases h
      | cons i rest =>
          have hi : i ∈ heavyRainPositions ((citySorted tbl.rows c).map (·.precipitation)) := by
            rw [hq]
            exact List.mem_cons_self ..
          obtain ⟨h1, h2, h3⟩ := (mem_heavyRainPositions _ _).mp hi
          exact ⟨i, h1, h2, h3⟩
    · rintro ⟨i, h1, h2, h3⟩
      have hi : i ∈ heavyRainPositions ((citySorted tbl.rows c).map (·.precipitation)) :=
        (mem_heavyRainPositions _ _).mpr ⟨h1, h2, h3⟩
      cases hq : heavyRainPositions ((citySorted tbl.rows c).map (·.precipitation)) with
      | nil => rw [hq] at hi; cases hi
      | cons j rest =>
          rw [heavyRainFinding_some _ _ j rest hq]
          rfl
  · rw [hP]
    exact countP_city_filterMap _ HeavyRainEvent.city (heavyRainFinding_city tbl.rows) _
      (pdUnique_nodup _) c
  · rw [hP]
    refine forall_mem_filterMap _ HeavyRainEvent.city (heavyRainFinding_city tbl.rows) _ c _ ?_
    intro x hx
    cases hq : heavyRainPositions ((citySorted tbl.rows c).map (·.precipitation)) with
    | nil => rw [heavyRainFinding_none _ _ hq] at hx; cases hx
    | cons i rest =>
        rw [heavyRainFinding_some _ _ i rest hq] at hx
        rw [← Option.some.inj hx]
        constructor <;> simp only [hq]

/-- A 3-hour one-city series whose trailing 3-hour precipitation sum is
39 mm. -/
def rainTable : Table :=
  { rows := [mkObs 0 "A" 20 60 12 10 30, mkObs 1 "A" 20 60 13 10 30, mkObs 2 "A" 20 60 14 10 30],
    hasCols := true, hasState := false, hasRegion := false }

/-- C8 witness: the 39 mm 3-hour burst yields a heavy-rain finding. -/
theorem detect_weather_patterns_C8_witness :
    ∃ hr, hr ∈ (detect_weather_patterns rainTable).heavy_rain_events ∧ hr.city = "A" := by
  refine (detect_weather_patterns_C8 rainTable "A" (by decide)).1.mpr ⟨2, by norm_num, ?_, ?_⟩
  · norm_num [rainTable, citySorted, sortByTime, sortStable, insertLe, mkObs]
  · norm_num [precip3h, rainTable, citySorted, sortByTime, sortStable, insertLe, mkObs]

/-- Length of the leading `true` prefix of a boolean list. -/
def leadTrue : List Bool → ℕ
  | [] => 0
  | false :: _ => 0
  | true :: rest => leadTrue rest + 1

/-- The list has `k` consecutive `true` entries starting at some position. -/
def hasRun (k : ℕ) (l : List Bool) : Prop :=
  ∃ i, i + k ≤ l.length ∧ ∀ j, j < k → l.getD (i + j) false = true

/-- The leading `true` prefix is no longer than the list. -/
lemma leadTrue_le_length : ∀ l : List Bool, leadTrue l ≤ l.length := by
  intro l
  induction l with
  | nil => simp [leadTrue]
  | cons b rest ih =>
      cases b with
      | false => simp [leadTrue]
      | true => simpa [leadTrue] using ih

/-- The first `k` entries are all `true` iff the leading `true` prefix has
length at least `k`. -/
lemma leadTrue_ge_iff : ∀ (l : List Bool) (k : ℕ),
    k ≤ leadTrue l ↔ ∀ j, j < k → l.getD j false = true := by
  intro l
  induction l with
  | nil =>
      intro k
      constructor
      · intro h j hj
        simp [leadTrue] at h
        omega
      · intro h
        cases k with
        | zero => simp
        | succ k2 => have := h 0 (by omega); simp at this
  | cons b rest ih =>
      intro k
      cases b with
      | false =>
          constructor
          · intro h j hj
            simp [leadTrue] at h
            omega
          · intro h
            cases k with
            | zero => simp
            | succ k2 => have := h 0 (by omega); simp at this
      | true =>
          cases k with
          | zero => simp
          | succ k2 =>
              rw [leadTrue]
              constructor
              · intro h j hj
                cases j with
                | zero => rfl
                | succ j2 =>
                    rw [List.getD_cons_succ]
                    exact (ih k2).mp (by omega) j2 (by omega)
              · intro h
                have h2 : k2 ≤ leadTrue rest := by
                  apply (ih k2).mpr
                  intro j hj
                  have := h (j + 1) (by omega)
                  rwa [List.getD_cons_succ] at this
                omega

/-- A long-enough leading `true` prefix is a run at position 0. -/
lemma hasRun_of_le_leadTrue (k : ℕ) (l : List Bool) (h : k ≤ leadTrue l) : hasRun k l := by
  refine ⟨0, ?_, ?_⟩
  · have := leadTrue_le_length l
    omega
  · intro j hj
    rw [Nat.zero_add]
    exact (leadTrue_ge_iff l k).mp h j hj

/-- A run in a cons either starts at the head or lies in the tail. -/
lemma hasRun_cons (k : ℕ) (b : Bool) (rest : List Bool) :
    hasRun k (b :: rest) ↔
      (∀ j, j < k → (b :: rest).getD j false = true) ∨ hasRun k rest := by
  constructor
  · rintro ⟨i, hlen, hall⟩
    cases i with
    | zero => exact Or.inl fun j hj => by simpa using hall j hj
    | succ i2 =>
        refine Or.inr ⟨i2, by simp at hlen; omega, fun j hj => ?_⟩
        have := hall j hj
        rwa [show i2 + 1 + j = (i2 + j) + 1 by omega, List.getD_cons_succ] at this
  · rintro (h | ⟨i, hlen, hall⟩)
    · refine ⟨0, ?_, fun j hj => by simpa using h j hj⟩
      by_contra hlt
      have hbad := h (b :: rest).length (by omega)
      rw [List.getD_eq_default _ _ (le_refl _)] at hbad
      exact absurd hbad (by simp)
    · refine ⟨i + 1, by simp; omega, fun j hj => ?_⟩
      rw [show i + 1 + j = (i + j) + 1 by omega, List.getD_cons_succ]
      exact hall j hj

/-- The run-length encoder reports a run of length at least `k` iff the open
run reaches `k` or the remaining list contains `k` consecutive `true`
entries. -/
lemma trueRunsAux_any_iff (k : ℕ) (hk : 0 < k) :
    ∀ (l : List Bool) (cur : ℕ),
      ((trueRunsAux l cur).any fun n => decide (k ≤ n)) = true ↔
        (k ≤ cur + leadTrue l ∨ hasRun k l) := by
  intro l
  induction l with
  | nil =>
      intro cur
      by_cases hcur : cur = 0
      · constructor
        · intro h
          simp [trueRunsAux, hcur] at h
        · rintro (h | ⟨i, hlen, hall⟩)
          · simp [leadTrue, hcur] at h
            omega
          · simp at hlen
            omega
      · constructor
        · intro h
          simp [trueRunsAux, hcur] at h
          left
          simp [leadTrue]
          omega
        · rintro (h | ⟨i, hlen, hall⟩)
          · simp [leadTrue] at h
            simp [trueRunsAux, hcur]
            omega
          · simp at hlen
            omega
  | cons b rest ih =>
      intro cur
      cases b with
      | true =>
          rw [show trueRunsAux (true :: rest) cur = trueRunsAux rest (cur + 1) from rfl, ih]
          constructor
          · rintro (h | h)
            · left
              simp [leadTrue]
              omega
            · right
              exact (hasRun_cons k true rest).mpr (Or.inr h)
          · rintro (h | h)
            · left
              simp [leadTrue] at h ⊢
              omega
            · rcases (hasRun_cons k true rest).mp h with h0 | hr
              · left
                have := (leadTrue_ge_iff (true :: rest) k).mpr h0
                simp [leadTrue] at this ⊢
                omega
              · right
                exact hr
      | false =>
          have hrw : hasRun k (false :: rest) ↔ hasRun k rest := by
            rw [hasRun_cons k false rest]
            constructor
            · rintro (h0 | hr)
              · have := h0 0 hk
                simp at this
              · exact hr
            · exact Or.inr
          by_cases hcur : cur = 0
          · rw [show trueRunsAux (false :: rest) cur = trueRunsAux rest 0 from by
                simp [trueRunsAux, hcur], ih]
            rw [hrw]
            constructor
            · rintro (h | h)
              · right
                exact hasRun_of_le_leadTrue k rest (by omega)
              · right
                exact h
            · rintro (h | h)
              · simp [leadTrue, hcur] at h
                omega
              · right
                exact h
          · rw [show trueRunsAux (false :: rest) cur = cur :: trueRunsAux rest 0 from by
                simp [trueRunsAux, hcur]]
            rw [List.any_cons]
            rw [hrw]
            constructor
            · intro h
              by_cases hkc : k ≤ cur
              · left
                simp [leadTrue]
                omega
              · have h2 : ((trueRunsAux rest 0).any fun n => decide (k ≤ n)) = true := by
                  simpa [hkc] using h
                rcases (ih 0).mp h2 with h3 | h4
                · right
                  exact hasRun_of_le_leadTrue k rest (by omega)
                · right
                  exact h4
            · rintro (h | h)
              · have hkc : k ≤ cur := by simpa [leadTrue] using h
                simp [hkc]
              · simp [(ih 0).mpr (Or.inr h)]

/-- Some maximal `true` run has length at least `k` iff the list has `k`
consecutive `true` entries somewhere. -/
lemma trueRuns_any_iff (k : ℕ) (hk : 0 < k) (l : List Bool) :
    ((trueRuns l).any fun n => decide (k ≤ n)) = true ↔ hasRun k l := by
  rw [trueRuns, trueRunsAux_any_iff k hk l 0]
  constructor
  · rintro (h | h)
    · exact hasRun_of_le_leadTrue k l (by omega)
    · exact h
  · exact Or.inr

/-- With no hot run of length 3 the heat-wave detector returns nothing. -/
lemma heatWaveFinding_none (rows : List Obs) (c : String)
    (h : ((trueRuns ((citySorted rows c).map fun r =>
        decide ((35 : ℚ) < r.temperature_2m))).any fun n => decide (3 ≤ n)) = false) :
    heatWaveFinding rows c = none := by
  simp [heatWaveFinding, h]

/-- With a hot run of length 3 the heat-wave detector records the longest
run and the maximum temperature over all hot hours. -/
lemma heatWaveFinding_some (rows : List Obs) (c : String)
    (h : ((trueRuns ((citySorted rows c).map fun r =>
        decide ((35 : ℚ) < r.temperature_2m))).any fun n => decide (3 ≤ n)) = true) :
    heatWaveFinding rows c = some
      { city := c
        duration_hours := natMax (trueRuns ((citySorted rows c).map fun r =>
          decide ((35 : ℚ) < r.temperature_2m)))
        max_temp := qmax (((citySorted rows c).filter fun r =>
          decide ((35 : ℚ) < r.temperature_2m)).map (·.temperature_2m)) } := by
  simp [heatWaveFinding, h]

/-- A heat-wave finding records the city it was computed for. -/
lemma heatWaveFinding_city (rows : List Obs) (c : String) (x : HeatWave)
    (h : heatWaveFinding rows c = some x) : x.city = c := by
  cases hq : ((trueRuns ((citySorted rows c).map fun r =>
      decide ((35 : ℚ) < r.temperature_2m))).any fun n => decide (3 ≤ n)) with
  | false => rw [heatWaveFinding_none rows c hq] at h; cases h
  | true =>
      rw [heatWaveFinding_some rows c hq] at h
      rw [← Option.some.inj h]

/-- C6: a HeatWave finding for a city exists iff its time-sorted series has
3 consecutive hours with `temperature_2m > 35` (equivalently, a maximal
hot run of length at least 3); at most one finding per city; the finding's
`duration_hours` is the longest hot-run length and its `max_temp` is the
maximum temperature over all hours above 35 for that city. -/
theorem detect_weather_patterns_C6 (tbl : Table) (c : String)
    (hc : c ∈ pdUnique (tbl.rows.map (·.city))) :
    ((∃ hw, hw ∈ (detect_weather_patterns tbl).heat_waves ∧ hw.city = c) ↔
      hasRun 3 ((citySorted tbl.rows c).map fun r => decide ((35 : ℚ) < r.temperature_2m))) ∧
    (((detect_weather_patterns tbl).heat_waves.countP fun hw => decide (hw.city = c)) ≤ 1) ∧
    (∀ hw, hw ∈ (detect_weather_patterns tbl).heat_waves → hw.city = c →
      hw.duration_hours = natMax (trueRuns ((citySorted tbl.rows c).map fun r =>
        decide ((35 : ℚ) < r.temperature_2m))) ∧
      hw.max_temp = qmax (((citySorted tbl.rows c).filter fun r =>
        decide ((35 : ℚ) < r.temperature_2m)).map (·.temperature_2m))) := by
  have hcrows : c ∈ tbl.rows.map (·.city) := mem_of_mem_pdUnique hc
  have hne : tbl.rows ≠ [] := by
    intro h
    rw [h] at hcrows
    cases hcrows
  have hie : tbl.rows.isEmpty = false := by
    cases htr : tbl.rows with
    | nil => exact absurd htr hne
    | cons a l => rfl
  have hP : (detect_weather_patterns tbl).heat_waves =
      (pdUnique (tbl.rows.map (·.city))).filterMap (heatWaveFinding tbl.rows) := by
    simp [detect_weather_patterns, hie]
  refine ⟨?_, ?_, ?_⟩
  · rw [hP, filterMap_exists_iff (heatWaveFinding tbl.rows) HeatWave.city
      (heatWaveFinding_city tbl.rows) _ c hc,
      ← trueRuns_any_iff 3 (by norm_num)]
    cases hq : ((trueRuns ((citySorted tbl.rows c).map fun r =>
        decide ((35 : ℚ) < r.temperature_2m))).any fun n => decide (3 ≤ n)) with
    | false => rw [heatWaveFinding_none _ _ hq]; simp
    | true => rw [heatWaveFinding_some _ _ hq]; simp
  · rw [hP]
    exact countP_city_filterMap _ HeatWave.city (heatWaveFinding_city tbl.rows) _
      (pdUnique_nodup _) c
  · rw [hP]
    refine forall_mem_filterMap _ HeatWave.city (heatWaveFinding_city tbl.rows) _ c _ ?_
    intro x hx
    cases hq : ((trueRuns ((citySorted tbl.rows c).map fun r =>
        decide ((35 : ℚ) < r.temperature_2m))).any fun n => decide (3 ≤ n)) with
    | false => rw [heatWaveFinding_none _ _ hq] at hx; cases hx
    | true =>
        rw [heatWaveFinding_some _ _ hq] at hx
        rw [← Option.some.inj hx]
        exact ⟨rfl, rfl⟩

/-- A 5-hour one-city series hot (`>35`) for exactly hours 1..3. -/
def hwTable : Table :=
  { rows := [mkObs 0 "A" 30 60 0 10 30, mkObs 1 "A" 36 60 0 10 30, mkObs 2 "A" 37 60 0 10 30,
             mkObs 3 "A" 38 60 0 10 30, mkObs 4 "A" 30 60 0 10 30],
    hasCols := true, hasState := false, hasRegion := false }

/-- C6 witness: exactly 3 consecutive hot hours yield one heat-wave finding
with `duration_hours = 3`. -/
theorem detect_weather_patterns_C6_witness :
    ∃ hw, hw ∈ (detect_weather_patterns hwTable).heat_waves ∧ hw.city = "A" ∧
      hw.duration_hours = 3 := by
  have hth := detect_weather_patterns_C6 hwTable "A" (by decide)
  obtain ⟨hw, hmem, hcity⟩ := hth.1.mpr
    ⟨1, by decide, fun j hj => by interval_cases j <;> decide⟩
  refine ⟨hw, hmem, hcity, ?_⟩
  have hdur := (hth.2.2 hw hmem hcity).1
  rw [hdur]
  decide
